import Mathlib

/-!
Verification development for the `racy` ray tracer.

The Rust sources are embedded shallowly:

* `RacyQ` — an exact-rational embedding of the float (`f64`) code paths that
  use only field operations and comparisons (src/vector.rs arithmetic,
  src/scene.rs `Scene::cast`, src/plane.rs).  All definitions are
  executable, so concrete runs can be checked by `decide`/`rfl`.
* `RacyR` — a real-number embedding of the code paths that need square
  roots and transcendental functions (src/vector.rs `length`/`normalize`,
  src/sphere.rs, src/material.rs, src/camera.rs, the render loop of
  src/main.rs).  IEEE divisions whose divisor can be zero are modelled with
  an `Option`-valued division where `none` stands for a non-finite result
  (NaN or an infinity): a real-number semantics has no value there.

The repository snapshot mixes two generations of the code: `scene.rs`,
`plane.rs`, `sphere.rs`, `vector.rs` and `intersection.rs` predate the
refactor that `main.rs` and `material.rs` rely on.  The newer `Scene::cast`
(returning an intersection record with fields `renderable_idx`, `t`,
`depth`), the `Light` record and `Vector::random_norm` exist only through
their callers and the specification, so those parts are modelled from the
spec (each such definition says so in its doc comment).  Everything else is
translated directly from the Rust sources.
-/

namespace RacyQ

/-- src/vector.rs `Vector`: a 3D vector of `f64` components, embedded with
exact rationals. -/
structure Vector where
  x : ℚ
  y : ℚ
  z : ℚ
  deriving DecidableEq, Repr

instance : Add Vector := ⟨fun a b => ⟨a.x + b.x, a.y + b.y, a.z + b.z⟩⟩

instance : Sub Vector := ⟨fun a b => ⟨a.x - b.x, a.y - b.y, a.z - b.z⟩⟩

instance : HMul Vector ℚ Vector := ⟨fun a b => ⟨a.x * b, a.y * b, a.z * b⟩⟩

/-- src/vector.rs `Vector::length_squared`. -/
def Vector.length_squared (v : Vector) : ℚ :=
  v.x * v.x + v.y * v.y + v.z * v.z

/-- `Vector::dot` (present in the newer generation of src/vector.rs; used by
src/sphere.rs, src/plane.rs and src/material.rs as the standard euclidean
dot product). -/
def Vector.dot (a b : Vector) : ℚ :=
  a.x * b.x + a.y * b.y + a.z * b.z

/-- src/ray.rs `Ray`. -/
structure Ray where
  origin : Vector
  direction : Vector
  deriving DecidableEq, Repr

/-- src/material.rs `HDRColor`, embedded with exact rationals. -/
structure HDRColor where
  r : ℚ
  g : ℚ
  b : ℚ
  deriving DecidableEq, Repr

/-- The material evaluator of the old generation of src/scene.rs: the trait
object's `color_at(point, normal, ray, depth)` method, with the scene
argument already applied. -/
def MaterialFn : Type :=
  Vector → Vector → Ray → ℕ → HDRColor

/-- src/scene.rs `Renderable` (trait object): `intersects` returns the hit
point, `normal` the surface normal at a point, `material` the material
evaluator. -/
structure Renderable where
  intersects : Ray → Option Vector
  normal : Vector → Vector
  material : MaterialFn

/-- src/scene.rs `Scene` (the generation checked in under src/): primitive
list plus background color and a point light.  The camera field is omitted
here because `Scene::cast`, the function under study, never reads it. -/
structure Scene where
  renderables : List Renderable
  bg_color : HDRColor
  light_pos : Vector
  light_power : ℚ

/-- The accumulator tuple `(Vector, &dyn Material, Vector, f64)` kept by the
loop of src/scene.rs `Scene::cast`: hit point, material, normal, squared
distance from the ray origin. -/
structure Hit where
  point : Vector
  material : MaterialFn
  normal : Vector
  dist_squared : ℚ

/-- One iteration of the `for object in &self.renderables` loop of
src/scene.rs `Scene::cast` (lines 17-43). -/
def castStep (ray : Ray) (acc : Option Hit) (object : Renderable) : Option Hit :=
  match object.intersects ray with
  | none => acc
  | some this_intersection =>
    match acc with
    | none =>
      let this_dist_squared := (ray.origin - this_intersection).length_squared
      some ⟨this_intersection, object.material, object.normal this_intersection,
        this_dist_squared⟩
    | some closest =>
      let this_dist_squared := (ray.origin - this_intersection).length_squared
      if this_dist_squared < closest.dist_squared then
        some ⟨this_intersection, object.material, object.normal this_intersection,
          this_dist_squared⟩
      else acc

/-- The selection loop of src/scene.rs `Scene::cast`: the value of
`intersection_obj` after the scan over `self.renderables`. -/
def castSelect (s : Scene) (ray : Ray) : Option Hit :=
  s.renderables.foldl (castStep ray) none

/-- src/scene.rs `Scene::cast` (lines 15-50): scan all renderables for the
closest hit, then evaluate its material at the requested depth. -/
def Scene.cast (s : Scene) (ray : Ray) (depth : ℕ) : Option HDRColor :=
  (s.renderables.foldl (castStep ray) none).map fun h =>
    h.material h.point h.normal ray depth

/-- The hit `h` is what the loop of `Scene::cast` records for renderable
`r`: `r` reports hit point `h.point`, and material, normal and squared
distance are derived from it exactly as in src/scene.rs lines 22-28. -/
def IsHitOf (ray : Ray) (h : Hit) (r : Renderable) : Prop :=
  r.intersects ray = some h.point ∧
  h.material = r.material ∧
  h.normal = r.normal h.point ∧
  h.dist_squared = (ray.origin - h.point).length_squared

/-- src/plane.rs `Plane`.  `normal` is stored pre-normalized by
`Plane::new`; the intersection routine reads the stored field. -/
structure Plane where
  center : Vector
  normal : Vector

/-- src/plane.rs `PlaneIntersection`. -/
structure PlaneIntersection where
  t : ℚ
  normal : Vector
  ray : Ray

/-- src/plane.rs `Plane::intersects` (lines 22-40).  The float literal
`0.0001` is modelled by the rational `1/10000`. -/
def Plane.intersects (p : Plane) (ray : Ray) : Option PlaneIntersection :=
  let denominator := p.normal.dot ray.direction
  if |denominator| < 1/10000 then none
  else
    let t := ((p.center - ray.origin).dot p.normal) / denominator
    if t < 1/10000 then none
    else some ⟨t, p.normal, ray⟩

/-- src/plane.rs `PlaneIntersection::point` (lines 49-51): the code returns
`self.ray.direction * self.t`, with no `ray.origin` term. -/
def PlaneIntersection.point (pi : PlaneIntersection) : Vector :=
  pi.ray.direction * pi.t

/-- src/plane.rs `PlaneIntersection::dist_squared` (lines 57-59). -/
def PlaneIntersection.dist_squared (pi : PlaneIntersection) : ℚ :=
  (pi.point - pi.ray.origin).length_squared

/-- A material evaluator that always answers black; used by the concrete
scenes below. -/
def matZero : MaterialFn := fun _ _ _ _ => ⟨0, 0, 0⟩

/-- A renderable reporting the hit point `(0,0,2)` for every ray. -/
def rObjA : Renderable := ⟨fun _ => some ⟨0, 0, 2⟩, fun _ => ⟨0, 0, -1⟩, matZero⟩

/-- A renderable reporting the hit point `(0,0,-2)` for every ray: from the
origin it ties with `rObjA` at squared distance 4. -/
def rObjB : Renderable := ⟨fun _ => some ⟨0, 0, -2⟩, fun _ => ⟨0, 0, 1⟩, matZero⟩

/-- A scene holding only `rObjA`. -/
def sceneOne : Scene := ⟨[rObjA], ⟨0, 0, 0⟩, ⟨0, 0, 0⟩, 0⟩

/-- A scene holding `rObjA` then `rObjB`, whose hits tie exactly. -/
def sceneTwo : Scene := ⟨[rObjA, rObjB], ⟨0, 0, 0⟩, ⟨0, 0, 0⟩, 0⟩

/-- The ray from the origin along positive `z`. -/
def rayUpZ : Ray := ⟨⟨0, 0, 0⟩, ⟨0, 0, 1⟩⟩

/-- The plane `z = 4` with unit normal `(0,0,1)` (already normalized, as
`Plane::new` stores it). -/
def planeZ4 : Plane := ⟨⟨0, 0, 4⟩, ⟨0, 0, 1⟩⟩

/-- A ray parallel to the `z` axis but offset to `x = 1`, so its origin
matters for the hit point. -/
def rayOff : Ray := ⟨⟨1, 0, 0⟩, ⟨0, 0, 1⟩⟩

end RacyQ

namespace RacyR

open scoped Classical

/-- src/vector.rs `Vector`, embedded with real components for the code
paths that take square roots. -/
structure Vector where
  x : ℝ
  y : ℝ
  z : ℝ

instance : Add Vector := ⟨fun a b => ⟨a.x + b.x, a.y + b.y, a.z + b.z⟩⟩

instance : Sub Vector := ⟨fun a b => ⟨a.x - b.x, a.y - b.y, a.z - b.z⟩⟩

instance : HMul Vector ℝ Vector := ⟨fun a b => ⟨a.x * b, a.y * b, a.z * b⟩⟩

noncomputable instance : HDiv Vector ℝ Vector :=
  ⟨fun a b => ⟨a.x / b, a.y / b, a.z / b⟩⟩

/-- src/vector.rs `Vector::length_squared`. -/
def Vector.length_squared (v : Vector) : ℝ :=
  v.x * v.x + v.y * v.y + v.z * v.z

/-- src/vector.rs `Vector::length`. -/
noncomputable def Vector.length (v : Vector) : ℝ :=
  Real.sqrt v.length_squared

/-- `Vector::dot` (newer generation of src/vector.rs, used throughout
src/sphere.rs and src/material.rs): the euclidean dot product. -/
def Vector.dot (a b : Vector) : ℝ :=
  a.x * b.x + a.y * b.y + a.z * b.z

/-- An `f64` division whose divisor may be zero: `none` models the
non-finite IEEE results (`0.0/0.0 = NaN`, `x/0.0 = ±inf`), which have no
value in a real-number semantics; `some` is the exact quotient
otherwise. -/
noncomputable def fdiv (a b : ℝ) : Option ℝ :=
  if b = 0 then none else some (a / b)

/-- src/vector.rs `Vector::normalize` (lines 101-111): each component is
divided by `self.length()` with no zero-length guard; the result models
the vector state after the call, and is `none` exactly when a component
came out non-finite. -/
noncomputable def Vector.normalize (v : Vector) : Option Vector := do
  let x ← fdiv v.x v.length
  let y ← fdiv v.y v.length
  let z ← fdiv v.z v.length
  pure (⟨x, y, z⟩ : Vector)

/-- src/vector.rs `Vector::normalized` (lines 113-116): `self / length`,
with the same IEEE division model as `Vector.normalize`. -/
noncomputable def Vector.normalizedF (v : Vector) : Option Vector := do
  let x ← fdiv v.x v.length
  let y ← fdiv v.y v.length
  let z ← fdiv v.z v.length
  pure (⟨x, y, z⟩ : Vector)

/-- src/vector.rs `Vector::normalized` in the exact-real semantics that is
valid whenever the length is nonzero (the division of the source is then
finite); used where the surrounding code supplies the direction of an
actual ray. -/
noncomputable def Vector.normalized (v : Vector) : Vector :=
  v / v.length

/-- src/ray.rs `Ray`. -/
structure Ray where
  origin : Vector
  direction : Vector

/-- src/material.rs `HDRColor`. -/
structure HDRColor where
  r : ℝ
  g : ℝ
  b : ℝ

instance : Add HDRColor := ⟨fun a b => ⟨a.r + b.r, a.g + b.g, a.b + b.b⟩⟩

instance : HMul HDRColor ℝ HDRColor := ⟨fun a b => ⟨a.r * b, a.g * b, a.b * b⟩⟩

instance : HMul HDRColor HDRColor HDRColor :=
  ⟨fun a b => ⟨a.r * b.r, a.g * b.g, a.b * b.b⟩⟩

noncomputable instance : HDiv HDRColor ℝ HDRColor :=
  ⟨fun a b => ⟨a.r / b, a.g / b, a.b / b⟩⟩

/-- src/material.rs `BLACK`. -/
def BLACK : HDRColor := ⟨0, 0, 0⟩

/-- src/material.rs `MAX_MIRROR_DEPTH`. -/
def MAX_MIRROR_DEPTH : ℕ := 5

/-- The four 8-bit channels of an `sdl2` `Color` produced by tone
mapping. -/
structure DisplayColor where
  r : ℕ
  g : ℕ
  b : ℕ
  a : ℕ
  deriving DecidableEq, Repr

/-- src/material.rs `HDRColor::into_display_rgb` (lines 30-38): per
channel, `(255.0 * (v * exposure).powf(gamma).min(1.0).max(0.0)).round()
as u8`, and alpha fixed at 255.  `powf` is real exponentiation, `round`
rounds half away from zero, which agrees with Lean's `round` on the
non-negative values produced by the clamp. -/
noncomputable def HDRColor.into_display_rgb (c : HDRColor) (exposure gamma : ℝ) :
    DisplayColor :=
  ⟨(round ((255 : ℝ) * (max (min ((c.r * exposure) ^ gamma) 1) 0))).toNat,
   (round ((255 : ℝ) * (max (min ((c.g * exposure) ^ gamma) 1) 0))).toNat,
   (round ((255 : ℝ) * (max (min ((c.b * exposure) ^ gamma) 1) 0))).toNat,
   255⟩

/-- src/sphere.rs `Sphere`. -/
structure Sphere where
  center : Vector
  radius : ℝ
  radius_squared : ℝ

/-- src/sphere.rs `Sphere::new`. -/
def Sphere.new (center : Vector) (radius : ℝ) : Sphere :=
  ⟨center, radius, radius * radius⟩

/-- src/sphere.rs `SphereIntersection`. -/
structure SphereIntersection where
  radius_squared : ℝ
  y_squared : ℝ
  t : ℝ
  ray : Ray
  sphere_center : Vector

/-- src/sphere.rs `Sphere::intersects` (lines 85-158): project the center
onto the ray to get `t`, reject `t < 0`, reject when the squared
perpendicular distance exceeds the squared radius, otherwise record the
precomputed quantities. -/
noncomputable def Sphere.intersects (s : Sphere) (ray : Ray) :
    Option SphereIntersection :=
  let to_center := s.center - ray.origin
  let t := ray.direction.dot to_center
  if t < 0 then none
  else
    let y_squared := (ray.direction * t - to_center).length_squared
    if y_squared > s.radius_squared then none
    else some ⟨s.radius_squared, y_squared, t, ray, s.center⟩

/-- src/sphere.rs `SphereIntersection::point` (lines 33-68): resolve the
near root `t - sqrt(radius_squared - y_squared)` and step along the
ray. -/
noncomputable def SphereIntersection.point (si : SphereIntersection) : Vector :=
  si.ray.origin + si.ray.direction * (si.t - Real.sqrt (si.radius_squared - si.y_squared))

/-- Modelled from the spec: the `Light` record (`{center, color, radius}`,
spec section 3) is absent from the src snapshot (it belongs to the newer
generation of src/scene.rs); its fields are read by src/material.rs and
src/main.rs exactly as declared here. -/
structure Light where
  center : Vector
  color : HDRColor
  radius : ℝ

/-- src/material.rs `Material` implementors, as a closed sum:
`DiffuseColor { color }`, `DebugNormals`, `Mirror { reflectivity }` and
`Refractor { refractive_index }`. -/
inductive MaterialKind where
  | diffuseColor (color : HDRColor)
  | debugNormals
  | mirror (reflectivity : ℝ)
  | refractor (refractive_index : ℝ)

/-- Modelled from the spec: the newer `Renderable` trait object (spec
section 3, "Primitive": `intersect(ray) → optional distance, normal(point)
→ Vector, material() → Material`); the trait itself is absent from the src
snapshot, which holds an older signature. -/
structure Renderable where
  intersects : Ray → Option ℝ
  normal : Vector → Vector
  material : MaterialKind

instance : Inhabited Renderable :=
  ⟨⟨fun _ => none, fun _ => ⟨0, 0, 0⟩, .debugNormals⟩⟩

/-- src/camera.rs `Camera` (the plain data; the derived constants here are
ordinary reals, as produced by a construction with nonzero screen
dimensions). -/
structure Camera where
  eye : Vector
  look : Vector
  perp : Vector
  angle : ℝ
  screen_width : ℕ
  screen_height : ℕ
  xstart : ℝ
  ystart : ℝ
  xmult : ℝ
  ymult : ℝ

/-- src/camera.rs `Camera::get_ray_from_uv` (lines 82-97). -/
noncomputable def Camera.get_ray_from_uv (c : Camera) (u v : ℝ) : Ray :=
  let p := c.look - c.perp * (c.xstart + u * c.xmult)
  let direction : Vector := ⟨p.x, c.ystart + v * c.ymult, p.z⟩
  ⟨c.eye, direction.normalized⟩

/-- Modelled from the spec: the newer `Scene` record, absent from the src
snapshot; its fields (`renderables`, `lights`, `photons`, `bg_color`,
`cam`) are those read by src/material.rs and src/main.rs. -/
structure Scene where
  cam : Camera
  renderables : List Renderable
  lights : List Light
  photons : List Light
  bg_color : HDRColor

/-- Modelled from the spec: the intersection record returned by the newer
`Scene::cast` (spec section 4.4: `Intersection{primitive_index, t,
depth}`); src/material.rs and src/main.rs read exactly these fields. -/
structure Intersection where
  renderable_idx : ℕ
  t : ℝ
  depth : ℕ

/-- Modelled from the spec: the selection scan of the newer `Scene::cast`
(spec section 4.4): a linear scan over all primitives tracking the
minimum non-negative `t`, ties resolved first-encountered-wins. -/
noncomputable def castModelGo (s : Scene) (ray : Ray) : Option (ℕ × ℝ) :=
  s.renderables.enum.foldl (fun acc ir =>
    match ir.2.intersects ray with
    | none => acc
    | some t =>
      if 0 ≤ t then
        match acc with
        | none => some (ir.1, t)
        | some best => if t < best.2 then some (ir.1, t) else acc
      else acc) none

/-- Modelled from the spec: the newer `Scene::cast` (spec section 4.4),
absent from the src snapshot.  It returns the selected primitive index and
distance, with the `depth` argument threaded through unchanged for the
shading evaluator's bookkeeping. -/
noncomputable def castModel (s : Scene) (ray : Ray) (depth : ℕ) :
    Option Intersection :=
  (castModelGo s ray).map fun p => ⟨p.1, p.2, depth⟩

/-- src/material.rs `color_at` for the four material variants
(`DiffuseColor` lines 115-227, `DebugNormals` lines 231-247, `Mirror`
lines 256-293, `Refractor` lines 299-336).  `rng` models the stream of
`Vector::random_norm()` unit-vector draws of the thread RNG, indexed by
light and sample; `List.take` models `choose_multiple`, whose sample count
`photons.len().min(0)` is zero.  The float literals `5.0`, `0.01`, `2.0`,
`-1.0` appear as the same rationals. -/
noncomputable def colorAt (s : Scene) (rng : ℕ → ℕ → Vector) (m : MaterialKind)
    (point normal : Vector) (ray : Ray) (depth : ℕ) : HDRColor :=
  match m with
  | .diffuseColor albedo =>
    if depth > MAX_MIRROR_DEPTH then BLACK
    else
      let color :=
        s.lights.enum.foldl (fun (color : HDRColor) (li : ℕ × Light) =>
          let light := li.2
          let light_samples : ℕ := 1 + (round (light.radius * 5)).toNat
          (List.range light_samples).foldl (fun (color : HDRColor) (j : ℕ) =>
            let to_light := light.center + rng li.1 j * light.radius - point
            let dist_to_light := to_light.length
            let contribution :=
              let theta_cos := to_light.dot normal
              let intensity := 1 / (to_light.length_squared * (light_samples : ℝ))
              color + light.color * intensity * theta_cos
            match castModel s ⟨point, to_light.normalized⟩ (depth + 1) with
            | none => contribution
            | some intersection =>
              if intersection.t < dist_to_light then color else contribution) color) BLACK
      let photon_samples : ℕ := min s.photons.length 0
      let color :=
        (s.photons.take photon_samples).foldl (fun (color : HDRColor) (light : Light) =>
          let to_light := light.center - point
          let dist_to_light := to_light.length
          if dist_to_light ≤ 1/100 then color
          else
            let contribution :=
              let theta_cos := to_light.dot normal
              let intensity := 1 / to_light.length_squared
              color + light.color / (photon_samples : ℝ) * intensity * theta_cos
            match castModel s ⟨point, to_light.normalized⟩ (depth + 1) with
            | none => contribution
            | some intersection =>
              if intersection.t < dist_to_light then color else contribution)
          color
      albedo * color
  | .debugNormals =>
    ⟨(1 + normal.x) / 2, (1 + normal.y) / 2, 1/2 - normal.z⟩
  | .mirror reflectivity =>
    if hd : depth > MAX_MIRROR_DEPTH then BLACK
    else
      let neg_norm := normal * (-1 : ℝ)
      let mirror_direction :=
        ray.direction - neg_norm * (2 : ℝ) * (ray.direction.dot neg_norm)
      let ray_reflection : Ray := ⟨point, mirror_direction⟩
      (match hc : castModel s ray_reflection (depth + 1) with
       | some intersection =>
         let point2 := ray_reflection.origin + ray_reflection.direction * intersection.t
         let object := s.renderables.getD intersection.renderable_idx default
         let normal2 := object.normal point2
         colorAt s rng object.material point2 normal2 ray_reflection
           (intersection.depth + 1)
       | none => s.bg_color) * reflectivity
  | .refractor _refractive_index =>
    if hd : depth > MAX_MIRROR_DEPTH then BLACK
    else
      let neg_norm := normal * (-1 : ℝ)
      let mirror_direction :=
        ray.direction - neg_norm * (2 : ℝ) * (ray.direction.dot neg_norm)
      let ray_reflection : Ray := ⟨point, mirror_direction⟩
      (match hc : castModel s ray_reflection (depth + 1) with
       | some intersection =>
         let point2 := ray_reflection.origin + ray_reflection.direction * intersection.t
         let object := s.renderables.getD intersection.renderable_idx default
         let normal2 := object.normal point2
         colorAt s rng object.material point2 normal2 ray_reflection
           (intersection.depth + 1)
       | none => s.bg_color) *
        (1 - (depth : ℝ) / (MAX_MIRROR_DEPTH : ℝ))
termination_by MAX_MIRROR_DEPTH + 1 - depth
decreasing_by
  all_goals
    simp only [castModel, Option.map_eq_some'] at hc
    obtain ⟨p, -, hp⟩ := hc
    subst hp
    simp only [MAX_MIRROR_DEPTH] at hd ⊢
    omega


/-- src/camera.rs `Camera` as produced by `Camera::new`: the derived
stepping constants are kept in the IEEE model, where a field is `none`
exactly when its `f64` computation produced a non-finite value (the
divisors `screen_width` and `screen_height` may be zero; the divisor `45.0`
cannot). -/
structure CameraF where
  eye : Vector
  look : Vector
  perp : Vector
  angle : ℝ
  screen_width : ℕ
  screen_height : ℕ
  xstart : Option ℝ
  ystart : ℝ
  xmult : Option ℝ
  ymult : Option ℝ

/-- src/camera.rs `Camera::new` (lines 39-62), including the
`set_angle(0.0)` call it makes: `fovx = (w/h)*fovy`, `xstart =
-0.5*fovx/45`, `ystart = 0.5*fovy/45`, `xmult = (fovx/45)/w`, `ymult =
-(fovy/45)/h`, `look = normalize(-sin 0, 0, -cos 0)`, `perp =
normalize(-sin(0+pi/2), 0, -cos(0+pi/2))`.  No validation of the
arguments is performed. -/
noncomputable def Camera.new (eye : Vector) (fovy : ℝ)
    (screen_width screen_height : ℕ) : CameraF :=
  let fovx := (fdiv (screen_width : ℝ) (screen_height : ℝ)).map (fun q => q * fovy)
  let xstart := fovx.map (fun fx => -(1/2) * fx / 45)
  let ystart := (1/2) * fovy / 45
  let xmult := fovx.bind (fun fx => fdiv (fx / 45) (screen_width : ℝ))
  let ymult := (fdiv (fovy / 45) (screen_height : ℝ)).map (fun q => -q)
  let look : Vector := Vector.normalized ⟨-Real.sin 0, 0, -Real.cos 0⟩
  let perp : Vector :=
    Vector.normalized ⟨-Real.sin (0 + Real.pi / 2), 0, -Real.cos (0 + Real.pi / 2)⟩
  ⟨eye, look, perp, 0, screen_width, screen_height, xstart, ystart, xmult, ymult⟩

/-- src/main.rs `EXPOSURE`. -/
def EXPOSURE : ℝ := 1

/-- src/main.rs `GAMMA`. -/
def GAMMA : ℝ := 1

/-- src/main.rs `render`, body of the per-pixel task (lines 344-367): a
pixel is four bytes; on a hit the tone-mapped color is written in
blue-green-red-alpha order, on a miss the pixel is left untouched. -/
noncomputable def renderPixel (scene : Scene) (rng : ℕ → ℕ → Vector) (i : ℕ)
    (pixel : ℕ × ℕ × ℕ × ℕ) : ℕ × ℕ × ℕ × ℕ :=
  let x := i % scene.cam.screen_width
  let y := i / scene.cam.screen_width
  let pixel_ray := scene.cam.get_ray_from_uv (x : ℝ) (y : ℝ)
  match castModel scene pixel_ray 0 with
  | none => pixel
  | some intersection =>
    let point := pixel_ray.origin + pixel_ray.direction * intersection.t
    let object := scene.renderables.getD intersection.renderable_idx default
    let normal := object.normal point
    let color := colorAt scene rng object.material point normal pixel_ray 0
    let display_rgb := color.into_display_rgb EXPOSURE GAMMA
    (display_rgb.b, display_rgb.g, display_rgb.r, display_rgb.a)

/-- src/main.rs `render` (lines 341-369): every pixel chunk of the screen
buffer is processed independently by `renderPixel`. -/
noncomputable def render (scene : Scene) (rng : ℕ → ℕ → Vector)
    (screen : List (ℕ × ℕ × ℕ × ℕ)) : List (ℕ × ℕ × ℕ × ℕ) :=
  screen.enum.map fun ip => renderPixel scene rng ip.1 ip.2

/-- Modelled from the spec: the `Refractor` behavior described in spec
section 4.5 — Snell refraction by the standard vector formula, the
entering-versus-exiting index ratio chosen by the sign of `ray·normal`
with the normal flipped when exiting, total internal reflection (negative
discriminant) falling back to the mirror direction, and recursion through
the scene cast at `depth+1` exactly as Mirror does.  This is the
claim-side definition used to compare the specified behavior with the
implementation in src/material.rs. -/
noncomputable def refractorSpec (s : Scene) (rng : ℕ → ℕ → Vector)
    (refractive_index : ℝ) (point normal : Vector) (ray : Ray) (depth : ℕ) :
    HDRColor :=
  if depth > MAX_MIRROR_DEPTH then BLACK
  else
    let entering := ray.direction.dot normal < 0
    let n2 : Vector := if entering then normal else normal * (-1 : ℝ)
    let eta : ℝ := if entering then 1 / refractive_index else refractive_index
    let cos_i := -(ray.direction.dot n2)
    let discriminant := 1 - eta * eta * (1 - cos_i * cos_i)
    let direction :=
      if discriminant < 0 then
        let neg_norm := n2 * (-1 : ℝ)
        ray.direction - neg_norm * (2 : ℝ) * (ray.direction.dot neg_norm)
      else
        ray.direction * eta + n2 * (eta * cos_i - Real.sqrt discriminant)
    let out_ray : Ray := ⟨point, direction⟩
    match castModel s out_ray (depth + 1) with
    | some intersection =>
      let point2 := out_ray.origin + out_ray.direction * intersection.t
      let object := s.renderables.getD intersection.renderable_idx default
      let normal2 := object.normal point2
      colorAt s rng object.material point2 normal2 out_ray (intersection.depth + 1)
    | none => s.bg_color

/-- A constant stream of unit vectors standing in for the thread RNG. -/
def rngZ : ℕ → ℕ → Vector := fun _ _ => ⟨0, 0, 1⟩

/-- A camera whose fields are all zero; used by scenes whose rays are
never inspected. -/
def camZero : Camera := ⟨⟨0, 0, 0⟩, ⟨0, 0, 0⟩, ⟨0, 0, 0⟩, 0, 0, 0, 0, 0, 0, 0⟩

/-- A point light (radius zero) of color `(1,1,1)` two units above the
origin. -/
def lightAbove : Light := ⟨⟨0, 2, 0⟩, ⟨1, 1, 1⟩, 0⟩

/-- A scene with no primitives and only `lightAbove`. -/
def sceneDiffuse : Scene := ⟨camZero, [], [lightAbove], [], ⟨0, 0, 0⟩⟩

/-- A scene with no primitives, no lights and a black background. -/
def sceneEmpty : Scene := ⟨camZero, [], [], [], ⟨0, 0, 0⟩⟩

/-- A debug-material wall hit (at distance 1) exactly by the rays whose
direction has positive `z` component. -/
noncomputable def wallUp : Renderable :=
  ⟨fun r => if 0 < r.direction.z then some 1 else none,
   fun _ => ⟨0, 0, -1⟩, .debugNormals⟩

/-- The scene holding only `wallUp`. -/
noncomputable def sceneRefract : Scene := ⟨camZero, [wallUp], [], [], ⟨0, 0, 0⟩⟩

/-- A mirror wall (reflectivity `0.8`) hit at distance 1 by rays of
positive `z` direction. -/
noncomputable def mirrorUp : Renderable :=
  ⟨fun r => if 0 < r.direction.z then some 1 else none,
   fun _ => ⟨0, 0, -1⟩, .mirror (4/5)⟩

/-- A mirror wall (reflectivity `0.8`) hit at distance 1 by rays of
negative `z` direction, facing `mirrorUp`. -/
noncomputable def mirrorDown : Renderable :=
  ⟨fun r => if r.direction.z < 0 then some 1 else none,
   fun _ => ⟨0, 0, 1⟩, .mirror (4/5)⟩

/-- Two parallel mirrors facing each other. -/
noncomputable def sceneTwoMirrors : Scene :=
  ⟨camZero, [mirrorUp, mirrorDown], [], [], ⟨0, 0, 0⟩⟩


end RacyR

/-!
Theorems.  First a few unfolding lemmas for the arithmetic instances,
then the fold invariants of `Scene::cast`, then one theorem per claim.
-/

namespace RacyR

@[simp] theorem Vector.vadd_def (a b : Vector) :
    a + b = ⟨a.x + b.x, a.y + b.y, a.z + b.z⟩ := rfl

@[simp] theorem Vector.vsub_def (a b : Vector) :
    a - b = ⟨a.x - b.x, a.y - b.y, a.z - b.z⟩ := rfl

@[simp] theorem Vector.vsmul_def (a : Vector) (s : ℝ) :
    a * s = ⟨a.x * s, a.y * s, a.z * s⟩ := rfl

@[simp] theorem Vector.vsdiv_def (a : Vector) (s : ℝ) :
    a / s = ⟨a.x / s, a.y / s, a.z / s⟩ := rfl

@[simp] theorem HDRColor.cadd_def (a b : HDRColor) :
    a + b = ⟨a.r + b.r, a.g + b.g, a.b + b.b⟩ := rfl

@[simp] theorem HDRColor.csmul_def (a : HDRColor) (s : ℝ) :
    a * s = ⟨a.r * s, a.g * s, a.b * s⟩ := rfl

@[simp] theorem HDRColor.cmul_def (a b : HDRColor) :
    a * b = ⟨a.r * b.r, a.g * b.g, a.b * b.b⟩ := rfl

@[simp] theorem HDRColor.csdiv_def (a : HDRColor) (s : ℝ) :
    a / s = ⟨a.r / s, a.g / s, a.b / s⟩ := rfl

/-- Claim C9: `normalize` (and `normalized`) on the zero vector performs no
checked failure and returns no finite sentinel: each component is divided
by the zero length, which in `f64` yields NaN (`0.0/0.0`); in the IEEE
model both results are `none`, the marker of silently non-finite
components.  This contradicts the specified behavior (fail loudly or
return a defined sentinel), so the claim names a code bug. -/
theorem claim_C9 :
    Vector.normalize ⟨0, 0, 0⟩ = none ∧ Vector.normalizedF ⟨0, 0, 0⟩ = none := by
  have hlen : (⟨0, 0, 0⟩ : Vector).length = 0 := by
    simp [Vector.length, Vector.length_squared]
  constructor <;>
    simp [Vector.normalize, Vector.normalizedF, fdiv, hlen]

/-- Claim C10: `Camera::new` performs no validation: with a zero screen
width the constructor succeeds and the derived stepping constant `xmult`
is non-finite (`(0/45)/0`, a NaN); with a zero screen height `xstart` and
`ymult` are non-finite.  This contradicts the specified fail-fast
construction, so the claim names a code bug. -/
theorem claim_C10 :
    (Camera.new ⟨0, 0, 0⟩ 45 0 320).xmult = none ∧
    (Camera.new ⟨0, 0, 0⟩ 45 320 0).xstart = none ∧
    (Camera.new ⟨0, 0, 0⟩ 45 320 0).ymult = none ∧
    (Camera.new ⟨0, 0, 0⟩ 45 0 320).screen_width = 0 := by
  refine ⟨?_, ?_, ?_, rfl⟩ <;> norm_num [Camera.new, fdiv]

/-- Claim C2: a ray starting at the exact center of the unit sphere with
direction `(0,0,1)` does intersect, but the implementation resolves the
near root `t - x = 0 - 1` and reports the point `(0,0,-1)` behind the
origin, not the forward exit point `center + direction * radius =
(0,0,1)`; no smallest-non-negative-root selection exists in the code, so
the claim names a code bug. -/
theorem claim_C2 :
    ((Sphere.new ⟨0, 0, 0⟩ 1).intersects ⟨⟨0, 0, 0⟩, ⟨0, 0, 1⟩⟩).map
        SphereIntersection.point = some ⟨0, 0, -1⟩ ∧
    ¬ ((⟨0, 0, -1⟩ : Vector) =
        (⟨0, 0, 0⟩ : Vector) + (⟨0, 0, 1⟩ : Vector) * (1 : ℝ)) := by
  constructor
  · have h1 : (Sphere.new ⟨0, 0, 0⟩ 1).intersects ⟨⟨0, 0, 0⟩, ⟨0, 0, 1⟩⟩ =
        some ⟨1, 0, 0, ⟨⟨0, 0, 0⟩, ⟨0, 0, 1⟩⟩, ⟨0, 0, 0⟩⟩ := by
      norm_num [Sphere.new, Sphere.intersects, Vector.dot, Vector.length_squared]
    rw [h1]
    norm_num [SphereIntersection.point, Real.sqrt_one]
  · intro h
    have hz := congrArg Vector.z h
    norm_num at hz

end RacyR

namespace RacyQ

@[simp] theorem Vector.qadd_def (a b : Vector) :
    a + b = ⟨a.x + b.x, a.y + b.y, a.z + b.z⟩ := rfl

@[simp] theorem Vector.qsub_def (a b : Vector) :
    a - b = ⟨a.x - b.x, a.y - b.y, a.z - b.z⟩ := rfl

@[simp] theorem Vector.qsmul_def (a : Vector) (s : ℚ) :
    a * s = ⟨a.x * s, a.y * s, a.z * s⟩ := rfl

theorem castStep_none_arm (ray : Ray) (acc : Option Hit) (r : Renderable)
    (hi : r.intersects ray = none) : castStep ray acc r = acc := by
  simp [castStep, hi]

theorem castStep_fresh_arm (ray : Ray) (r : Renderable) (p : Vector)
    (hi : r.intersects ray = some p) :
    castStep ray none r =
      some ⟨p, r.material, r.normal p, (ray.origin - p).length_squared⟩ := by
  simp [castStep, hi]

theorem castStep_update_arm (ray : Ray) (r : Renderable) (p : Vector) (c : Hit)
    (hi : r.intersects ray = some p) :
    castStep ray (some c) r =
      if (ray.origin - p).length_squared < c.dist_squared then
        some ⟨p, r.material, r.normal p, (ray.origin - p).length_squared⟩
      else some c := by
  simp [castStep, hi]

theorem castStep_eq_none (ray : Ray) (acc : Option Hit) (r : Renderable) :
    castStep ray acc r = none ↔ acc = none ∧ r.intersects ray = none := by
  rcases hi : r.intersects ray with _ | p
  · simp [castStep_none_arm ray acc r hi]
  · rcases acc with _ | c
    · simp [castStep_fresh_arm ray r p hi]
    · rw [castStep_update_arm ray r p c hi]
      split <;> simp

theorem castStep_some_src (ray : Ray) (acc : Option Hit) (r : Renderable)
    (c : Hit) (h : castStep ray acc r = some c) :
    acc = some c ∨ IsHitOf ray c r := by
  rcases hi : r.intersects ray with _ | p
  · rw [castStep_none_arm ray acc r hi] at h
    exact Or.inl h
  · rcases acc with _ | c0
    · rw [castStep_fresh_arm ray r p hi] at h
      cases h
      exact Or.inr ⟨hi, rfl, rfl, rfl⟩
    · rw [castStep_update_arm ray r p c0 hi] at h
      split at h
      · cases h
        exact Or.inr ⟨hi, rfl, rfl, rfl⟩
      · exact Or.inl h

theorem castStep_acc_some (ray : Ray) (r : Renderable) (c : Hit) :
    ∃ c2, castStep ray (some c) r = some c2 ∧
      c2.dist_squared ≤ c.dist_squared := by
  rcases hi : r.intersects ray with _ | p
  · exact ⟨c, castStep_none_arm ray (some c) r hi, le_refl _⟩
  · rw [castStep_update_arm ray r p c hi]
    by_cases hlt : (ray.origin - p).length_squared < c.dist_squared
    · exact ⟨_, by rw [if_pos hlt], le_of_lt hlt⟩
    · exact ⟨c, by rw [if_neg hlt], le_refl _⟩

theorem castStep_hit_le (ray : Ray) (acc : Option Hit) (r : Renderable)
    (p : Vector) (hi : r.intersects ray = some p) :
    ∃ c2, castStep ray acc r = some c2 ∧
      c2.dist_squared ≤ (ray.origin - p).length_squared := by
  rcases acc with _ | c
  · exact ⟨_, castStep_fresh_arm ray r p hi, le_refl _⟩
  · rw [castStep_update_arm ray r p c hi]
    by_cases hlt : (ray.origin - p).length_squared < c.dist_squared
    · exact ⟨_, by rw [if_pos hlt], le_refl _⟩
    · exact ⟨c, by rw [if_neg hlt], le_of_not_lt hlt⟩

theorem castStep_keep (ray : Ray) (r : Renderable) (h : Hit)
    (hle : ∀ p, r.intersects ray = some p →
      h.dist_squared ≤ (ray.origin - p).length_squared) :
    castStep ray (some h) r = some h := by
  rcases hi : r.intersects ray with _ | p
  · exact castStep_none_arm ray (some h) r hi
  · rw [castStep_update_arm ray r p h hi, if_neg (not_lt.mpr (hle p hi))]

theorem foldl_castStep_none (ray : Ray) :
    ∀ (rs : List Renderable) (acc : Option Hit),
      rs.foldl (castStep ray) acc = none ↔
        acc = none ∧ ∀ r ∈ rs, r.intersects ray = none := by
  intro rs
  induction rs with
  | nil => simp
  | cons r rs ih =>
    intro acc
    simp only [List.foldl_cons, ih, castStep_eq_none, List.mem_cons]
    constructor
    · rintro ⟨⟨h1, h2⟩, h3⟩
      refine ⟨h1, fun r2 hr2 => ?_⟩
      rcases hr2 with rfl | hr2
      · exact h2
      · exact h3 r2 hr2
    · rintro ⟨h1, h2⟩
      exact ⟨⟨h1, h2 r (Or.inl rfl)⟩, fun r2 hr2 => h2 r2 (Or.inr hr2)⟩

theorem foldl_castStep_min (ray : Ray) :
    ∀ (rs : List Renderable) (acc : Option Hit) (h : Hit),
      rs.foldl (castStep ray) acc = some h →
      (acc = some h ∨ ∃ r ∈ rs, IsHitOf ray h r) ∧
      (∀ c, acc = some c → h.dist_squared ≤ c.dist_squared) ∧
      (∀ r ∈ rs, ∀ p, r.intersects ray = some p →
        h.dist_squared ≤ (ray.origin - p).length_squared) := by
  intro rs
  induction rs with
  | nil =>
    intro acc h hfold
    simp only [List.foldl_nil] at hfold
    refine ⟨Or.inl hfold, fun c hc => ?_, fun r hr => absurd hr (List.not_mem_nil r)⟩
    rw [hfold] at hc
    cases hc
    exact le_refl _
  | cons r rs ih =>
    intro acc h hfold
    simp only [List.foldl_cons] at hfold
    obtain ⟨hsrc, hacc, hlist⟩ := ih (castStep ray acc r) h hfold
    refine ⟨?_, ?_, ?_⟩
    · rcases hsrc with hstep | ⟨r2, hr2, hhit⟩
      · rcases castStep_some_src ray acc r h hstep with h1 | h1
        · exact Or.inl h1
        · exact Or.inr ⟨r, List.mem_cons_self r rs, h1⟩
      · exact Or.inr ⟨r2, List.mem_cons_of_mem r hr2, hhit⟩
    · intro c hc
      subst hc
      obtain ⟨c2, hc2, hle⟩ := castStep_acc_some ray r c
      exact le_trans (hacc c2 hc2) hle
    · intro r2 hr2 p hp
      rcases List.mem_cons.mp hr2 with rfl | hr2
      · obtain ⟨c2, hc2, hle⟩ := castStep_hit_le ray acc r2 p hp
        exact le_trans (hacc c2 hc2) hle
      · exact hlist r2 hr2 p hp

/-- Claim C5: `Scene::cast` scans the renderables linearly and keeps the
hit whose point is closest to the ray origin (tracked as a squared
distance, equivalent to the distance itself); on an exact tie the
first-encountered renderable wins (appending a no-closer renderable does
not change the selection); and the `depth` argument plays no part in the
selection, which is the depth-free `castSelect`: `cast` hands `depth` only
to the selected material. -/
theorem claim_C5 (s : Scene) (ray : Ray) :
    (∀ depth, s.cast ray depth =
      (castSelect s ray).map fun h => h.material h.point h.normal ray depth) ∧
    (castSelect s ray = none ↔ ∀ r ∈ s.renderables, r.intersects ray = none) ∧
    (∀ h, castSelect s ray = some h →
      (∃ r ∈ s.renderables, IsHitOf ray h r) ∧
      ∀ r ∈ s.renderables, ∀ p, r.intersects ray = some p →
        h.dist_squared ≤ (ray.origin - p).length_squared) ∧
    (∀ h rn, castSelect s ray = some h →
      (∀ p, rn.intersects ray = some p →
        h.dist_squared ≤ (ray.origin - p).length_squared) →
      castSelect ⟨s.renderables ++ [rn], s.bg_color, s.light_pos, s.light_power⟩
        ray = some h) := by
  refine ⟨fun depth => rfl, ?_, ?_, ?_⟩
  · simpa using foldl_castStep_none ray s.renderables none
  · intro h hsel
    obtain ⟨hsrc, -, hlist⟩ := foldl_castStep_min ray s.renderables none h hsel
    rcases hsrc with h1 | h1
    · cases h1
    · exact ⟨h1, hlist⟩
  · intro h rn hsel hle
    show (s.renderables ++ [rn]).foldl (castStep ray) none = some h
    rw [List.foldl_append]
    show castStep ray (castSelect s ray) rn = some h
    rw [hsel]
    exact castStep_keep ray rn h hle

/-- Witness for claim C5 at a concrete exact tie: in the scene
`[rObjA, rObjB]` both hits are at squared distance 4 from the origin, and
the selection is the hit of the first renderable `rObjA`. -/
theorem claim_C5_witness :
    castSelect sceneTwo rayUpZ = some ⟨⟨0, 0, 2⟩, matZero, ⟨0, 0, -1⟩, 4⟩ := by
  have hiA : rObjA.intersects rayUpZ = some ⟨0, 0, 2⟩ := rfl
  have h1 : castSelect sceneOne rayUpZ =
      some ⟨⟨0, 0, 2⟩, matZero, ⟨0, 0, -1⟩, 4⟩ := by
    show castStep rayUpZ none rObjA = _
    rw [castStep_fresh_arm rayUpZ rObjA ⟨0, 0, 2⟩ hiA]
    norm_num [rayUpZ, Vector.length_squared, rObjA, matZero]
  have hb : ∀ p, rObjB.intersects rayUpZ = some p →
      (⟨⟨0, 0, 2⟩, matZero, ⟨0, 0, -1⟩, (4 : ℚ)⟩ : Hit).dist_squared ≤
        (rayUpZ.origin - p).length_squared := by
    intro p hp
    have hb2 : rObjB.intersects rayUpZ = some ⟨0, 0, -2⟩ := rfl
    rw [hb2] at hp
    injection hp with hp
    subst hp
    norm_num [rayUpZ, Vector.length_squared]
  exact (claim_C5 sceneOne rayUpZ).2.2.2 _ rObjB h1 hb

/-- Claim C6: for the plane `z = 4` and the ray from `(1,0,0)` along
`(0,0,1)`, `Plane::intersects` yields `t = 4`, but
`PlaneIntersection::point` returns `direction * t = (0,0,4)`, dropping
`ray.origin`: the reported point is not on the ray (`origin + direction*t
= (1,0,4)`), and `dist_squared` is 17 rather than `t^2 * |direction|^2 =
16`; the claim names a code bug. -/
theorem claim_C6 :
    ((planeZ4.intersects rayOff).map PlaneIntersection.point = some ⟨0, 0, 4⟩) ∧
    ((planeZ4.intersects rayOff).map PlaneIntersection.dist_squared = some 17) ∧
    ¬ ((⟨0, 0, 4⟩ : Vector) = rayOff.origin + rayOff.direction * (4 : ℚ)) ∧
    ¬ ((17 : ℚ) = 4 ^ 2 * rayOff.direction.length_squared) := by
  have hI : planeZ4.intersects rayOff = some ⟨4, ⟨0, 0, 1⟩, rayOff⟩ := by
    norm_num [Plane.intersects, planeZ4, rayOff, Vector.dot]
  refine ⟨?_, ?_, ?_, ?_⟩
  · rw [hI]
    norm_num [PlaneIntersection.point, rayOff]
  · rw [hI]
    norm_num [PlaneIntersection.dist_squared, PlaneIntersection.point, rayOff,
      Vector.length_squared]
  · intro h
    have hx := congrArg Vector.x h
    norm_num [rayOff] at hx
  · intro h
    norm_num [rayOff, Vector.length_squared] at h

end RacyQ

namespace RacyR

theorem tonemap_channel_neutral (x : ℝ) :
    (0 ≤ x → x ≤ 1 →
      (round ((255 : ℝ) * (max (min ((x * 1) ^ (1 : ℝ)) 1) 0))).toNat =
        (round ((255 : ℝ) * x)).toNat) ∧
    (1 < x →
      (round ((255 : ℝ) * (max (min ((x * 1) ^ (1 : ℝ)) 1) 0))).toNat = 255) ∧
    (x < 0 →
      (round ((255 : ℝ) * (max (min ((x * 1) ^ (1 : ℝ)) 1) 0))).toNat = 0) := by
  rw [mul_one, Real.rpow_one]
  refine ⟨fun h0 h1 => ?_, fun h => ?_, fun h => ?_⟩
  · rw [min_eq_left h1, max_eq_left h0]
  · rw [min_eq_right h.le, max_eq_left zero_le_one, mul_one]
    have h255 : ((255 : ℕ) : ℝ) = (255 : ℝ) := by norm_num
    rw [← h255, round_natCast]
    rfl
  · rw [min_eq_left (h.le.trans zero_le_one), max_eq_right h.le, mul_zero,
      round_zero]
    rfl

/-- Claim C8: with exposure = gamma = 1, each channel of
`into_display_rgb` is exactly `round(255*v)` for `v` in `[0,1]`, clamps to
255 above 1 and to 0 below 0, and the alpha byte is always 255. -/
theorem claim_C8 (c : HDRColor) :
    ((0 ≤ c.r → c.r ≤ 1 →
        (c.into_display_rgb 1 1).r = (round ((255 : ℝ) * c.r)).toNat) ∧
      (1 < c.r → (c.into_display_rgb 1 1).r = 255) ∧
      (c.r < 0 → (c.into_display_rgb 1 1).r = 0)) ∧
    ((0 ≤ c.g → c.g ≤ 1 →
        (c.into_display_rgb 1 1).g = (round ((255 : ℝ) * c.g)).toNat) ∧
      (1 < c.g → (c.into_display_rgb 1 1).g = 255) ∧
      (c.g < 0 → (c.into_display_rgb 1 1).g = 0)) ∧
    ((0 ≤ c.b → c.b ≤ 1 →
        (c.into_display_rgb 1 1).b = (round ((255 : ℝ) * c.b)).toNat) ∧
      (1 < c.b → (c.into_display_rgb 1 1).b = 255) ∧
      (c.b < 0 → (c.into_display_rgb 1 1).b = 0)) ∧
    (∀ exposure gamma, (c.into_display_rgb exposure gamma).a = 255) := by
  refine ⟨⟨?_, ?_, ?_⟩, ⟨?_, ?_, ?_⟩, ⟨?_, ?_, ?_⟩, fun exposure gamma => rfl⟩
  · exact (tonemap_channel_neutral c.r).1
  · exact (tonemap_channel_neutral c.r).2.1
  · exact (tonemap_channel_neutral c.r).2.2
  · exact (tonemap_channel_neutral c.g).1
  · exact (tonemap_channel_neutral c.g).2.1
  · exact (tonemap_channel_neutral c.g).2.2
  · exact (tonemap_channel_neutral c.b).1
  · exact (tonemap_channel_neutral c.b).2.1
  · exact (tonemap_channel_neutral c.b).2.2

/-- Witness for claim C8 at the color `(1,1,1)`: the red channel maps to
`round(255) = 255` and the alpha byte is 255. -/
theorem claim_C8_witness :
    ((⟨1, 1, 1⟩ : HDRColor).into_display_rgb 1 1).r = 255 ∧
    ((⟨1, 1, 1⟩ : HDRColor).into_display_rgb 1 1).a = 255 := by
  have h := claim_C8 ⟨1, 1, 1⟩
  refine ⟨?_, h.2.2.2 1 1⟩
  have h1 := h.1.1 (by norm_num) (by norm_num)
  rw [h1]
  have h255 : ((255 : ℕ) : ℝ) = (255 : ℝ) * (1 : ℝ) := by norm_num
  rw [show ((⟨1, 1, 1⟩ : HDRColor).r : ℝ) = (1 : ℝ) from rfl, ← h255,
    round_natCast]
  rfl

end RacyR

namespace RacyR

/-- Claim C1: the diffuse evaluator's occlusion test matches the claim,
but the per-sample contribution does not: with albedo `(1,1,1)`, a single
unshadowed point light of color `(1,1,1)` at distance 2 straight along the
unit normal, the code yields `(1/2,1/2,1/2)` — `light.color *
(to_light·normal) / distance^2`, where `to_light` is unnormalized — while
the claimed formula `albedo * light.color * cos(theta) / distance^2` gives
`(1/4,1/4,1/4)`.  The code disagrees with its own comments (steps 2-3 of
src/material.rs claim a cosine and the inverse-square law), so the claim
names a code bug. -/
theorem claim_C1 :
    colorAt sceneDiffuse rngZ (MaterialKind.diffuseColor ⟨1, 1, 1⟩) ⟨0, 0, 0⟩
      ⟨0, 1, 0⟩ ⟨⟨0, 0, 0⟩, ⟨0, 0, 1⟩⟩ 0 = ⟨1/2, 1/2, 1/2⟩ ∧
    ¬ ((⟨1/2, 1/2, 1/2⟩ : HDRColor) = (⟨1, 1, 1⟩ : HDRColor) * ((1 : ℝ)/4)) := by
  constructor
  · simp only [colorAt]
    norm_num [sceneDiffuse, lightAbove, rngZ, castModel, castModelGo,
      MAX_MIRROR_DEPTH, Vector.dot, Vector.length_squared, BLACK,
      List.enum, List.enumFrom, List.range_succ, List.range_zero]
  · intro h
    have hr := congrArg HDRColor.r h
    norm_num at hr

end RacyR

namespace RacyR

/-- Counterexample to claim C3: a head-on ray entering a refractive
surface.  Snell's law sends it straight through (downward, away from
`wallUp`), so the spec-side refractor sees no hit and returns the black
background; the implementation instead reflects it upward into `wallUp`
and returns that wall's debug color.  `Refractor::color_at` therefore does
not compute the outgoing ray by Snell's law. -/
theorem claim_C3_counterexample :
    colorAt sceneRefract rngZ (MaterialKind.refractor (38/25)) ⟨0, 0, 0⟩
      ⟨0, 0, 1⟩ ⟨⟨0, 0, 0⟩, ⟨0, 0, -1⟩⟩ 0 = ⟨1/2, 1/2, 3/2⟩ ∧
    refractorSpec sceneRefract rngZ (38/25) ⟨0, 0, 0⟩ ⟨0, 0, 1⟩
      ⟨⟨0, 0, 0⟩, ⟨0, 0, -1⟩⟩ 0 = ⟨0, 0, 0⟩ ∧
    ¬ ((⟨1/2, 1/2, 3/2⟩ : HDRColor) = (⟨0, 0, 0⟩ : HDRColor)) := by
  refine ⟨?_, ?_, ?_⟩
  · simp only [colorAt]
    rw [dif_neg (by norm_num [MAX_MIRROR_DEPTH])]
    split
    · rename_i intersection heq
      norm_num [sceneRefract, wallUp, castModel, castModelGo, Vector.dot,
        List.enum, List.enumFrom] at heq
      subst heq
      norm_num [sceneRefract, wallUp, List.getD]
      simp only [colorAt]
      norm_num
    · rename_i heq
      norm_num [sceneRefract, wallUp, castModel, castModelGo, Vector.dot,
        List.enum, List.enumFrom] at heq
      exact Option.noConfusion heq
  · simp only [refractorSpec]
    norm_num [sceneRefract, wallUp, castModel, castModelGo, MAX_MIRROR_DEPTH,
      Vector.dot, List.enum, List.enumFrom, Real.sqrt_one]
  · intro h
    have hr := congrArg HDRColor.r h
    norm_num at hr

end RacyR

namespace RacyR

/-- Claim C3 as amended: `Refractor::color_at` ignores its refractive
index entirely and behaves exactly like `Mirror::color_at` — same
reflected direction, same cast and recursion — with the fixed reflectivity
replaced by the depth-dependent factor `1 - depth/MAX_MIRROR_DEPTH`. -/
theorem claim_C3_amended (s : Scene) (rng : ℕ → ℕ → Vector) (ri : ℝ)
    (point normal : Vector) (ray : Ray) (depth : ℕ) :
    colorAt s rng (MaterialKind.refractor ri) point normal ray depth =
      colorAt s rng
        (MaterialKind.mirror (1 - (depth : ℝ) / (MAX_MIRROR_DEPTH : ℝ)))
        point normal ray depth := by
  simp only [colorAt]

end RacyR

namespace RacyR

/-- Counterexample to claim C4 as stated: the claim quantifies over every
material variant, but `DebugNormals::color_at` has no depth guard — at
depth 6 (greater than `MAX_MIRROR_DEPTH = 5`) it returns its
normal-derived color, not black. -/
theorem claim_C4_counterexample :
    colorAt sceneEmpty rngZ MaterialKind.debugNormals ⟨0, 0, 0⟩ ⟨1, 0, 0⟩
      ⟨⟨0, 0, 0⟩, ⟨0, 0, 1⟩⟩ 6 = ⟨1, 1/2, 1/2⟩ ∧
    ¬ ((⟨1, 1/2, 1/2⟩ : HDRColor) = BLACK) := by
  constructor
  · simp only [colorAt]
    norm_num
  · intro h
    have hr := congrArg HDRColor.r h
    norm_num [BLACK] at hr

/-- Claim C4 as amended: every recursion-capable material variant
(Diffuse, Mirror, Refractor) returns black immediately when `depth`
exceeds `MAX_MIRROR_DEPTH = 5` — this is the base case making the
recursion through `Scene::cast` (always invoked at `depth + 1`)
well-founded — while `DebugNormals` is depth-independent and never
recurses; in particular a scene of two parallel mirrors facing each other
evaluates to a finite color (here black after three bounces). -/
theorem claim_C4_amended :
    (∀ (s : Scene) (rng : ℕ → ℕ → Vector) (point normal : Vector) (ray : Ray)
      (depth : ℕ), MAX_MIRROR_DEPTH < depth →
      (∀ albedo, colorAt s rng (.diffuseColor albedo) point normal ray depth
        = BLACK) ∧
      (∀ reflectivity,
        colorAt s rng (.mirror reflectivity) point normal ray depth = BLACK) ∧
      (∀ ri, colorAt s rng (.refractor ri) point normal ray depth = BLACK)) ∧
    colorAt sceneTwoMirrors rngZ (.mirror (4/5)) ⟨0, 0, 0⟩ ⟨0, 0, 1⟩
      ⟨⟨0, 0, 0⟩, ⟨0, 0, -1⟩⟩ 0 = BLACK := by
  constructor
  · intro s rng point normal ray depth hdepth
    refine ⟨fun albedo => ?_, fun reflectivity => ?_, fun ri => ?_⟩
    · simp only [colorAt]
      rw [if_pos hdepth]
    · simp only [colorAt]
      rw [dif_pos hdepth]
    · simp only [colorAt]
      rw [dif_pos hdepth]
  · simp only [colorAt]
    rw [dif_neg (by norm_num [MAX_MIRROR_DEPTH])]
    split
    · rename_i i1 heq1
      norm_num [sceneTwoMirrors, mirrorUp, mirrorDown, castModel, castModelGo,
        Vector.dot, List.enum, List.enumFrom] at heq1
      subst heq1
      norm_num [sceneTwoMirrors, mirrorUp, mirrorDown, List.getD]
      simp only [colorAt]
      rw [dif_neg (by norm_num [MAX_MIRROR_DEPTH])]
      split
      · rename_i i2 heq2
        norm_num [sceneTwoMirrors, mirrorUp, mirrorDown, castModel, castModelGo,
          Vector.dot, List.enum, List.enumFrom] at heq2
        subst heq2
        norm_num [sceneTwoMirrors, mirrorUp, mirrorDown, List.getD]
        simp only [colorAt]
        rw [dif_neg (by norm_num [MAX_MIRROR_DEPTH])]
        split
        · rename_i i3 heq3
          norm_num [sceneTwoMirrors, mirrorUp, mirrorDown, castModel,
            castModelGo, Vector.dot, List.enum, List.enumFrom] at heq3
          subst heq3
          norm_num [sceneTwoMirrors, mirrorUp, mirrorDown, List.getD]
          simp only [colorAt]
          rw [dif_pos (by norm_num [MAX_MIRROR_DEPTH])]
          norm_num [BLACK]
        · rename_i heq3
          norm_num [sceneTwoMirrors, mirrorUp, mirrorDown, castModel,
            castModelGo, Vector.dot, List.enum, List.enumFrom] at heq3
          exact Option.noConfusion heq3
      · rename_i heq2
        norm_num [sceneTwoMirrors, mirrorUp, mirrorDown, castModel, castModelGo,
          Vector.dot, List.enum, List.enumFrom] at heq2
        exact Option.noConfusion heq2
    · rename_i heq1
      norm_num [sceneTwoMirrors, mirrorUp, mirrorDown, castModel, castModelGo,
        Vector.dot, List.enum, List.enumFrom] at heq1
      exact Option.noConfusion heq1

/-- Witness for the guard of claim C4: at depth 6 a mirror of reflectivity
1 returns black. -/
theorem claim_C4_witness :
    colorAt sceneEmpty rngZ (.mirror 1) ⟨0, 0, 0⟩ ⟨0, 0, 1⟩
      ⟨⟨0, 0, 0⟩, ⟨0, 0, 1⟩⟩ 6 = BLACK := by
  exact (claim_C4_amended.1 sceneEmpty rngZ ⟨0, 0, 0⟩ ⟨0, 0, 1⟩
    ⟨⟨0, 0, 0⟩, ⟨0, 0, 1⟩⟩ 6 (by norm_num [MAX_MIRROR_DEPTH])).2.1 1

end RacyR

namespace RacyR

/-- Counterexample to claim C7: in an empty scene with black background, a
framebuffer prefilled with the bytes `(7,7,7,7)` is returned unchanged by
`render` — the no-hit branch writes nothing — whereas the tone-mapped
background color would be the bytes `(0,0,255)` with alpha 255.  The
framebuffer bytes of a background-only pixel therefore do not equal the
configured background color. -/
theorem claim_C7_counterexample :
    render sceneEmpty rngZ [(7, 7, 7, 7)] = [(7, 7, 7, 7)] ∧
    sceneEmpty.bg_color.into_display_rgb EXPOSURE GAMMA = ⟨0, 0, 0, 255⟩ ∧
    ¬ (((7, 7, 7, 7) : ℕ × ℕ × ℕ × ℕ) = ((0, 0, 255, 255) : ℕ × ℕ × ℕ × ℕ)) := by
  refine ⟨?_, ?_, by norm_num⟩
  · simp only [render, renderPixel]
    norm_num [sceneEmpty, castModel, castModelGo, List.enum, List.enumFrom]
  · simp only [HDRColor.into_display_rgb, EXPOSURE, GAMMA, sceneEmpty]
    norm_num [Real.rpow_one]

/-- Claim C7 as amended: a pixel whose primary camera ray intersects no
primitive is left untouched by `render` — its previous framebuffer bytes
are kept; the background color is not written into the framebuffer (the
presentation layer separately clears its canvas to the background
color). -/
theorem claim_C7_amended (s : Scene) (rng : ℕ → ℕ → Vector) (i : ℕ)
    (pixel : ℕ × ℕ × ℕ × ℕ)
    (hmiss : castModel s
      (s.cam.get_ray_from_uv ((i % s.cam.screen_width : ℕ) : ℝ)
        ((i / s.cam.screen_width : ℕ) : ℝ)) 0 = none) :
    renderPixel s rng i pixel = pixel := by
  simp only [renderPixel]
  rw [hmiss]

/-- Witness for claim C7 as amended: in the empty scene the pixel bytes
`(7,7,7,7)` survive `renderPixel` unchanged. -/
theorem claim_C7_witness :
    renderPixel sceneEmpty rngZ 0 (7, 7, 7, 7) = (7, 7, 7, 7) := by
  exact claim_C7_amended sceneEmpty rngZ 0 (7, 7, 7, 7)
    (by norm_num [castModel, castModelGo, sceneEmpty])

end RacyR
